import Mathlib

/-!
Verification of the navi agent core: a shallow embedding of the Context
Manager (src/context.ts), the Agent Loop (src/repl.ts), and the two
Provider Adapters (src/providers/anthropic.ts and the OpenAI adapter),
with theorems settling the frozen claims about them.

Conventions of the embedding:
- JavaScript strings are Lean `String`s; `s.length` is `String.length`.
- `Math.ceil(n / 4)` on a natural length is `(n + 3) / 4`.
- JavaScript numbers appearing in configuration are `Int` (so that the
  `maxContextTokens - reserved` subtraction can go negative, as in JS);
  token estimates are `Nat`.
- `JSON.parse` / `JSON.stringify` are modelled by an executable JSON
  value type with a serializer and a fuel-based parser.  Numeric
  literals are modelled as integers and \u escapes are not modelled;
  no claim depends on either.
- Thrown exceptions are `Except String` or an `Option String` error
  component; async functions are ordinary functions.
-/

/-- JSON values, the model of `Record<string, unknown>` payloads
(`JSON.parse` results).  Object fields keep insertion order, as in JS. -/
inductive Json where
  | null
  | bool (b : Bool)
  | num (n : Int)
  | str (s : String)
  | arr (xs : List Json)
  | obj (fields : List (String × Json))

/-- The left-brace character, kept out of string literals. -/
def lbrace : Char := Char.ofNat 123

/-- The right-brace character. -/
def rbrace : Char := Char.ofNat 125

def escapeChar (c : Char) : String :=
  if c = '"' then "\\\""
  else if c = '\\' then "\\\\"
  else if c = '\n' then "\\n"
  else if c = '\t' then "\\t"
  else if c = '\r' then "\\r"
  else String.singleton c

def escapeString (s : String) : String :=
  "\"" ++ String.join (s.data.map escapeChar) ++ "\""

mutual

/-- Model of `JSON.stringify` (compact form, insertion-ordered fields). -/
def Json.stringify : Json → String
  | .null => "null"
  | .bool true => "true"
  | .bool false => "false"
  | .num n => toString n
  | .str s => escapeString s
  | .arr xs => "[" ++ stringifyItems xs ++ "]"
  | .obj fs => String.singleton lbrace ++ stringifyFields fs ++ String.singleton rbrace

def stringifyItems : List Json → String
  | [] => ""
  | [x] => Json.stringify x
  | x :: y :: rest => Json.stringify x ++ "," ++ stringifyItems (y :: rest)

def stringifyFields : List (String × Json) → String
  | [] => ""
  | [(k, v)] => escapeString k ++ ":" ++ Json.stringify v
  | (k, v) :: f :: rest => escapeString k ++ ":" ++ Json.stringify v ++ "," ++ stringifyFields (f :: rest)

end

def skipWs : List Char → List Char
  | [] => []
  | c :: rest => if c = ' ' ∨ c = '\n' ∨ c = '\t' ∨ c = '\r' then skipWs rest else c :: rest

def parseStringBody : List Char → List Char → Option (String × List Char)
  | [], _ => none
  | c :: rest, acc =>
    if c = '"' then some (String.mk acc.reverse, rest)
    else if c = '\\' then
      match rest with
      | [] => none
      | e :: rest2 =>
        if e = 'n' then parseStringBody rest2 ('\n' :: acc)
        else if e = 't' then parseStringBody rest2 ('\t' :: acc)
        else if e = 'r' then parseStringBody rest2 ('\r' :: acc)
        else if e = 'b' then parseStringBody rest2 (Char.ofNat 8 :: acc)
        else if e = 'f' then parseStringBody rest2 (Char.ofNat 12 :: acc)
        else if e = '"' ∨ e = '\\' ∨ e = '/' then parseStringBody rest2 (e :: acc)
        else none
    else parseStringBody rest (c :: acc)

def digitVal (c : Char) : Option Nat :=
  if '0' ≤ c ∧ c ≤ '9' then some (c.toNat - '0'.toNat) else none

def parseDigits : List Char → Option Nat → Option (Nat × List Char)
  | [], acc => match acc with | some n => some (n, []) | none => none
  | c :: rest, acc =>
    match digitVal c with
    | some d => parseDigits rest (some ((acc.getD 0) * 10 + d))
    | none => match acc with | some n => some (n, c :: rest) | none => none

mutual

/-- Model of `JSON.parse` value parsing (fuel-indexed recursive descent). -/
def parseValue : Nat → List Char → Option (Json × List Char)
  | 0, _ => none
  | Nat.succ fuel, cs =>
    match skipWs cs with
    | [] => none
    | c :: rest =>
      if c = 'n' then
        match rest with
        | 'u' :: 'l' :: 'l' :: rest2 => some (Json.null, rest2)
        | _ => none
      else if c = 't' then
        match rest with
        | 'r' :: 'u' :: 'e' :: rest2 => some (Json.bool true, rest2)
        | _ => none
      else if c = 'f' then
        match rest with
        | 'a' :: 'l' :: 's' :: 'e' :: rest2 => some (Json.bool false, rest2)
        | _ => none
      else if c = '"' then
        match parseStringBody rest [] with
        | some (s, rest2) => some (Json.str s, rest2)
        | none => none
      else if c = '[' then
        match skipWs rest with
        | ']' :: rest2 => some (Json.arr [], rest2)
        | rest2 => parseItems fuel rest2 []
      else if c = lbrace then
        match skipWs rest with
        | d :: rest2 => if d = rbrace then some (Json.obj [], rest2) else parseFields fuel (d :: rest2) []
        | [] => none
      else if c = '-' then
        match parseDigits rest none with
        | some (n, rest2) => some (Json.num (-(n : Int)), rest2)
        | none => none
      else
        match parseDigits (c :: rest) none with
        | some (n, rest2) => some (Json.num (n : Int), rest2)
        | none => none

def parseItems : Nat → List Char → List Json → Option (Json × List Char)
  | 0, _, _ => none
  | Nat.succ fuel, cs, acc =>
    match parseValue fuel cs with
    | none => none
    | some (v, rest) =>
      match skipWs rest with
      | ',' :: rest2 => parseItems fuel rest2 (v :: acc)
      | ']' :: rest2 => some (Json.arr (v :: acc).reverse, rest2)
      | _ => none

def parseFields : Nat → List Char → List (String × Json) → Option (Json × List Char)
  | 0, _, _ => none
  | Nat.succ fuel, cs, acc =>
    match skipWs cs with
    | c :: rest =>
      if c = '"' then
        match parseStringBody rest [] with
        | some (k, rest2) =>
          match skipWs rest2 with
          | ':' :: rest3 =>
            match parseValue fuel rest3 with
            | some (v, rest4) =>
              match skipWs rest4 with
              | ',' :: rest5 => parseFields fuel rest5 ((k, v) :: acc)
              | d :: rest5 => if d = rbrace then some (Json.obj ((k, v) :: acc).reverse, rest5) else none
              | [] => none
            | none => none
          | _ => none
        | none => none
      else none
    | [] => none

end

/-- Model of `JSON.parse`: a parse that must consume the whole input. -/
def parseJson (s : String) : Option Json :=
  match parseValue (s.length + 1) s.data with
  | some (v, rest) => match skipWs rest with | [] => some v | _ => none
  | none => none

/-! ## Data model (src/api.ts): messages and content blocks -/

/-- `role: "user" | "assistant"`. -/
inductive Role where
  | user
  | assistant
  deriving DecidableEq

/-- `ContentBlock` from src/api.ts.  `is_error?: boolean` is modelled as a
`Bool` (absent ≡ false; the code only ever writes `true` or omits it). -/
inductive ContentBlock where
  | text (text : String)
  | tool_use (id : String) (name : String) (input : Json)
  | tool_result (tool_use_id : String) (content : String) (is_error : Bool)

/-- `MessageContent = string | ContentBlock[]`. -/
inductive MessageContent where
  | str (s : String)
  | blocks (bs : List ContentBlock)

/-- `Message = {role, content}`. -/
structure Message where
  role : Role
  content : MessageContent

def isToolUse : ContentBlock → Bool
  | ContentBlock.tool_use _ _ _ => true
  | _ => false

def isToolResult : ContentBlock → Bool
  | ContentBlock.tool_result _ _ _ => true
  | _ => false

/-- The id of a `tool_use` block (the empty string on other blocks). -/
def blockUseId : ContentBlock → String
  | ContentBlock.tool_use tid _ _ => tid
  | _ => ""

/-- The `tool_use_id` of a `tool_result` block (empty string otherwise). -/
def blockResultId : ContentBlock → String
  | ContentBlock.tool_result tid _ _ => tid
  | _ => ""

/-! ## Tool registry surface (src/tools.ts) as consumed by the loop -/

/-- The schema entry of one tool-schema property. -/
structure SchemaProp where
  type : String
  description : String

/-- `ToolSchema` from src/tools.ts; `type` is always "object". -/
structure ToolSchema where
  type : String
  properties : List (String × SchemaProp)
  required : List String

/-- `ApiTool`: the wire-safe projection {name, description, input_schema}. -/
structure ApiTool where
  name : String
  description : String
  input_schema : ToolSchema

def SchemaProp.toJson (p : SchemaProp) : Json :=
  Json.obj [("type", Json.str p.type), ("description", Json.str p.description)]

def ToolSchema.toJson (s : ToolSchema) : Json :=
  Json.obj [("type", Json.str s.type),
    ("properties", Json.obj (s.properties.map (fun q => (q.1, q.2.toJson)))),
    ("required", Json.arr (s.required.map Json.str))]

def ApiTool.toJson (t : ApiTool) : Json :=
  Json.obj [("name", Json.str t.name), ("description", Json.str t.description),
    ("input_schema", t.input_schema.toJson)]

/-- An executable tool: `execute` returns the result string or fails with
a message (`Promise<string>` that may reject). -/
structure Tool where
  name : String
  execute : Json → Except String String

/-- `createToolRegistry` builds a `Map` keyed by name (later entries win),
so `get` is a last-wins lookup over the registration list. -/
def registryGet (tools : List Tool) (name : String) : Option Tool :=
  tools.reverse.find? (fun t => t.name == name)

/-! ## Context Manager (src/context.ts) -/

/-- `"truncate" | "error"`. -/
inductive ContextStrategy where
  | truncate
  | error
  deriving DecidableEq

/-- `ContextConfig` from src/context.ts.  The numeric fields are JS
numbers configured by the caller, hence `Int`. -/
structure ContextConfig where
  maxContextTokens : Int
  strategy : ContextStrategy
  reservedTokens : Int

/-- `Math.ceil(n / 4)` for a natural character count. -/
def ceilDiv4 (n : Nat) : Nat := (n + 3) / 4

/-- `estimateBlockTokens` from src/context.ts. -/
def estimateBlockTokens : ContentBlock → Nat
  | ContentBlock.text t => ceilDiv4 t.length
  | ContentBlock.tool_use _ name input =>
      ceilDiv4 name.length + ceilDiv4 (Json.stringify input).length + 10
  | ContentBlock.tool_result _ content _ => ceilDiv4 content.length + 10

/-- `estimateTokens` from src/context.ts. -/
def estimateTokens (m : Message) : Nat :=
  match m.content with
  | MessageContent.str s => ceilDiv4 s.length
  | MessageContent.blocks bs => (bs.map estimateBlockTokens).sum

/-- `estimateSystemTokens` from src/context.ts: the prompt estimate plus
the serialized tool-schema list estimate ("" and empty tool lists are
falsy and contribute nothing, matching the JS truthiness checks). -/
def estimateSystemTokens (systemPrompt : Option String) (tools : Option (List ApiTool)) : Nat :=
  (match systemPrompt with
   | some s => ceilDiv4 s.length
   | none => 0) +
  (match tools with
   | some ts =>
     if 0 < ts.length then ceilDiv4 (Json.stringify (Json.arr (ts.map ApiTool.toJson))).length
     else 0
   | none => 0)

/-- `totalMessageTokens`: the summing loop over all messages. -/
def totalMessageTokens : List Message → Nat
  | [] => 0
  | m :: rest => estimateTokens m + totalMessageTokens rest

/-- `TruncationResult = {messages, dropped}`. -/
structure TruncationResult where
  messages : List Message
  dropped : Nat

/-- The backward scan of `truncateMessages` (the `for (let i = length-1;
i >= 1; i--)` loop): `rev` is the tail of the message list reversed, and
each message that fits is unshifted onto `kept`; the scan stops at the
first message that does not fit. -/
def keepFromEnd : List Message → Nat → List Message → List Message
  | [], _, kept => kept
  | msg :: rest, budget, kept =>
    let tokens := estimateTokens msg
    if tokens ≤ budget then keepFromEnd rest (budget - tokens) (msg :: kept)
    else kept

/-- `truncateMessages` from src/context.ts. -/
def truncateMessages (messages : List Message) (maxTokens : Nat) : TruncationResult :=
  match messages with
  | [] => { messages := [], dropped := 0 }
  | first :: rest =>
    let total := totalMessageTokens (first :: rest)
    if total ≤ maxTokens then { messages := first :: rest, dropped := 0 }
    else
      let firstTokens := estimateTokens first
      if maxTokens < firstTokens then
        { messages := [first], dropped := (first :: rest).length - 1 }
      else
        let kept := keepFromEnd rest.reverse (maxTokens - firstTokens) []
        let result := first :: kept
        { messages := result, dropped := (first :: rest).length - result.length }

/-- `maxContextTokens - estimateSystemTokens(...) - config.reservedTokens`,
the available budget computed at the top of `manageContext`. -/
def availableOf (config : ContextConfig) (systemPrompt : Option String)
    (tools : Option (List ApiTool)) : Int :=
  config.maxContextTokens - (estimateSystemTokens systemPrompt tools : Int) - config.reservedTokens

/-- `manageContext` from src/context.ts; `throw` is `Except.error`.
(The `default` arm of the TS `switch` is unreachable with the closed
strategy type.) -/
def manageContext (messages : List Message) (config : ContextConfig)
    (systemPrompt : Option String) (tools : Option (List ApiTool)) :
    Except String TruncationResult :=
  let availableTokens := availableOf config systemPrompt tools
  if availableTokens ≤ 0 then
    Except.error "System prompt and tools consume the entire context window. Reduce system prompt size or tool count."
  else
    let total := totalMessageTokens messages
    if (total : Int) ≤ availableTokens then Except.ok { messages := messages, dropped := 0 }
    else
      match config.strategy with
      | ContextStrategy.truncate => Except.ok (truncateMessages messages availableTokens.toNat)
      | ContextStrategy.error =>
        Except.error ("Context limit exceeded: " ++ toString total ++ " estimated tokens, " ++
          toString availableTokens ++ " available. Use /clear or switch to truncate strategy.")

/-! ## Stream events and the Agent Loop (src/repl.ts) -/

/-- `StreamEvent` from src/api.ts, the normalized provider event model. -/
inductive StreamEvent where
  | text (text : String)
  | tool_use (id : String) (name : String) (input : Json)
  | usage (inputTokens : Nat) (outputTokens : Nat)
  | error (error : String)
  | stop (stopReason : String)

def isTextEvent : StreamEvent → Bool
  | StreamEvent.text _ => true
  | _ => false

def isToolUseEvent : StreamEvent → Bool
  | StreamEvent.tool_use _ _ _ => true
  | _ => false

def isUsageEvent : StreamEvent → Bool
  | StreamEvent.usage _ _ => true
  | _ => false

def isErrorEvent : StreamEvent → Bool
  | StreamEvent.error _ => true
  | _ => false

/-- `ConversationState` from src/repl.ts. -/
structure ConversationState where
  messages : List Message
  systemPrompt : Option String
  totalInputTokens : Nat
  totalOutputTokens : Nat
  turns : Nat

/-- `createConversation` from src/repl.ts. -/
def createConversation (systemPrompt : Option String) : ConversationState :=
  { messages := [], systemPrompt := systemPrompt, totalInputTokens := 0,
    totalOutputTokens := 0, turns := 0 }

/-- The per-call accumulator of the `for await` loop in `runAgentLoop`:
`textChunks`, `contentBlocks`, the latest `stopReason`, and the usage
deltas applied to the conversation counters during consumption. -/
structure CallAcc where
  textChunks : List String
  contentBlocks : List ContentBlock
  stopReason : String
  inTok : Nat
  outTok : Nat

/-- The accumulator at the start of each iteration
(`stopReason = "end_turn"`). -/
def initCallAcc : CallAcc :=
  { textChunks := [], contentBlocks := [], stopReason := "end_turn", inTok := 0, outTok := 0 }

/-- The event-consumption `for await` switch of `runAgentLoop`: consume
events in arrival order; an `error` event throws, which stops consumption
(the second component carries the thrown message). -/
def consumeEvents : List StreamEvent → CallAcc → CallAcc × Option String
  | [], acc => (acc, none)
  | e :: rest, acc =>
    match e with
    | StreamEvent.text t =>
        consumeEvents rest { acc with textChunks := acc.textChunks ++ [t] }
    | StreamEvent.tool_use tid name input =>
        consumeEvents rest
          { acc with contentBlocks := acc.contentBlocks ++ [ContentBlock.tool_use tid name input] }
    | StreamEvent.usage i o =>
        consumeEvents rest { acc with inTok := acc.inTok + i, outTok := acc.outTok + o }
    | StreamEvent.stop r => consumeEvents rest { acc with stopReason := r }
    | StreamEvent.error m => (acc, some m)

/-- `DANGEROUS_TOOLS` from src/repl.ts. -/
def DANGEROUS_TOOLS : List String := ["exec", "write_file"]

def execToolBlock (tool : Tool) (tid : String) (input : Json) : ContentBlock :=
  match tool.execute input with
  | Except.ok result => ContentBlock.tool_result tid result false
  | Except.error errMsg => ContentBlock.tool_result tid errMsg true

/-- One pass of the tool-execution `for` loop body of `runAgentLoop` for a
single content block: `none` on non-`tool_use` blocks (the `continue`),
otherwise the `tool_result` produced by the unknown-tool, denied,
failed, or successful branch. -/
def execOneTool (toolRegistry : Option (List Tool))
    (confirmTool : Option (String → Json → Bool)) : ContentBlock → Option ContentBlock
  | ContentBlock.tool_use tid name input =>
    some
      (match toolRegistry.bind (fun r => registryGet r name) with
       | none => ContentBlock.tool_result tid ("Unknown tool: " ++ name) true
       | some tool =>
         match confirmTool with
         | some c =>
           if DANGEROUS_TOOLS.contains name && !(c name input) then
             ContentBlock.tool_result tid "Tool execution denied by user." true
           else execToolBlock tool tid input
         | none => execToolBlock tool tid input)
  | _ => none

/-- Add a call's accumulated usage deltas to the conversation counters. -/
def applyUsage (state : ConversationState) (acc : CallAcc) : ConversationState :=
  { state with
      totalInputTokens := state.totalInputTokens + acc.inTok,
      totalOutputTokens := state.totalOutputTokens + acc.outTok }

/-- `state.messages.push(m)`. -/
def pushMessage (state : ConversationState) (m : Message) : ConversationState :=
  { state with messages := state.messages ++ [m] }

/-- `runAgentLoop` from src/repl.ts, with the iteration budget
(`maxIterations`) as explicit fuel.  The provider is the `streamMessage`
call as a function of the current history (system prompt and tool list
are fixed for the whole loop and folded into it).  The `Option String`
component is the thrown turn-level error, `none` on normal return;
running out of fuel returns normally, as `while (maxIterations-- > 0)`
does. -/
def runAgentLoopFuel (provider : List Message → List StreamEvent)
    (toolRegistry : Option (List Tool)) (confirmTool : Option (String → Json → Bool)) :
    Nat → ConversationState → ConversationState × Option String
  | 0, state => (state, none)
  | Nat.succ fuel, state =>
    let r := consumeEvents (provider state.messages) initCallAcc
    let acc := r.1
    match r.2 with
    | some m => (applyUsage state acc, some m)
    | none =>
      let assistantContent :=
        (if 0 < acc.textChunks.length then [ContentBlock.text (String.join acc.textChunks)] else [])
          ++ acc.contentBlocks
      let state1 := applyUsage state acc
      let state2 :=
        if 0 < assistantContent.length then
          pushMessage state1 { role := Role.assistant, content := MessageContent.blocks assistantContent }
        else state1
      if acc.contentBlocks.length = 0 ∨ acc.stopReason ≠ "tool_use" then (state2, none)
      else
        let toolResults := acc.contentBlocks.filterMap (execOneTool toolRegistry confirmTool)
        let state3 :=
          pushMessage state2 { role := Role.user, content := MessageContent.blocks toolResults }
        runAgentLoopFuel provider toolRegistry confirmTool fuel state3

/-- `runAgentLoop` with its fixed cap `let maxIterations = 20`. -/
def runAgentLoop (provider : List Message → List StreamEvent)
    (toolRegistry : Option (List Tool)) (confirmTool : Option (String → Json → Bool))
    (state : ConversationState) : ConversationState × Option String :=
  runAgentLoopFuel provider toolRegistry confirmTool 20 state

/-! ## Anthropic Provider Adapter (src/providers/anthropic.ts) -/

/-- `content_block` of a wire event (all fields optional). -/
structure CBlockInfo where
  type : Option String
  id : Option String
  name : Option String

/-- `delta` of a wire event. -/
structure DeltaInfo where
  type : Option String
  text : Option String
  partial_json : Option String
  stop_reason : Option String

/-- A `usage` payload (`input_tokens` / `output_tokens`, both optional). -/
structure UsageInfo where
  input_tokens : Option Nat
  output_tokens : Option Nat

/-- `ApiStreamEvent`, the parsed shape of one Anthropic SSE data line.
`message_usage` stands for `event.message?.usage` (both optional hops
collapsed) and `error_message` for `event.error?.message`. -/
structure ApiStreamEvent where
  type : String
  index : Option Nat
  content_block : Option CBlockInfo
  delta : Option DeltaInfo
  message_usage : Option UsageInfo
  usage : Option UsageInfo
  error_message : Option String

/-- A pending tool block being accumulated (`{id, name, jsonChunks}`). -/
structure ToolBlockBuilder where
  id : String
  name : String
  jsonChunks : List String

/-- `Map.set` on an insertion-ordered map keyed by block index. -/
def mapSet {α : Type} (m : List (Nat × α)) (k : Nat) (v : α) : List (Nat × α) :=
  if m.any (fun p => p.1 == k) then m.map (fun p => if p.1 == k then (k, v) else p)
  else m ++ [(k, v)]

/-- `Map.get`. -/
def mapGet {α : Type} (m : List (Nat × α)) (k : Nat) : Option α :=
  (m.find? (fun p => p.1 == k)).map Prod.snd

/-- `Map.delete`. -/
def mapDelete {α : Type} (m : List (Nat × α)) (k : Nat) : List (Nat × α) :=
  m.filter (fun p => p.1 != k)

/-- The adapter's stream-processing state: the index-keyed accumulator
map plus the usage counters captured from `message_start`/`message_delta`. -/
structure AnthState where
  toolBlocks : List (Nat × ToolBlockBuilder)
  inputTokens : Nat
  outputTokens : Nat

def initAnthState : AnthState :=
  { toolBlocks := [], inputTokens := 0, outputTokens := 0 }

/-- The per-line body of the Anthropic `send` loop: the chain of `if`
statements over one parsed wire event, in source order.  Returns the
yielded events, the updated state, and whether the generator returned
(`true` exactly on a wire `error` event). -/
def anthropicProcessEvent (st : AnthState) (e : ApiStreamEvent) :
    List StreamEvent × AnthState × Bool :=
  let textOut : List StreamEvent :=
    if e.type = "content_block_delta" then
      match e.delta with
      | some d =>
        match d.text with
        | some t => if d.type = some "text_delta" ∧ t ≠ "" then [StreamEvent.text t] else []
        | none => []
      | none => []
    else []
  let st1 :=
    if e.type = "content_block_start" then
      match e.content_block, e.index with
      | some cb, some idx =>
        if cb.type = some "tool_use" then
          let b : ToolBlockBuilder := { id := cb.id.getD "", name := cb.name.getD "", jsonChunks := [] }
          { st with toolBlocks := mapSet st.toolBlocks idx b }
        else st
      | _, _ => st
    else st
  let st2 :=
    if e.type = "content_block_delta" then
      match e.delta, e.index with
      | some d, some idx =>
        if d.type = some "input_json_delta" then
          match mapGet st1.toolBlocks idx, d.partial_json with
          | some b, some pj =>
            if pj ≠ "" then
              let b2 := { b with jsonChunks := b.jsonChunks ++ [pj] }
              { st1 with toolBlocks := mapSet st1.toolBlocks idx b2 }
            else st1
          | _, _ => st1
        else st1
      | _, _ => st1
    else st1
  let toolPair : List StreamEvent × AnthState :=
    if e.type = "content_block_stop" then
      match e.index with
      | some idx =>
        match mapGet st2.toolBlocks idx with
        | some b =>
          let json := String.join b.jsonChunks
          let input := if json = "" then Json.obj [] else (parseJson json).getD (Json.obj [])
          ([StreamEvent.tool_use b.id b.name input],
            { st2 with toolBlocks := mapDelete st2.toolBlocks idx })
        | none => ([], st2)
      | none => ([], st2)
    else ([], st2)
  let toolOut := toolPair.1
  let st3 := toolPair.2
  let st4 :=
    if e.type = "message_start" then
      match e.message_usage with
      | some u => { st3 with inputTokens := u.input_tokens.getD 0 }
      | none => st3
    else st3
  let st5 :=
    if e.type = "message_delta" then
      match e.usage with
      | some u => { st4 with outputTokens := u.output_tokens.getD 0 }
      | none => st4
    else st4
  let stopOut : List StreamEvent :=
    if e.type = "message_delta" then
      match e.delta with
      | some d =>
        match d.stop_reason with
        | some r => if r ≠ "" then [StreamEvent.stop r] else []
        | none => []
      | none => []
    else []
  if e.type = "error" then
    (textOut ++ toolOut ++ stopOut ++
      [StreamEvent.error (e.error_message.getD "Unknown stream error")], st5, true)
  else
    (textOut ++ toolOut ++ stopOut, st5, false)

/-- Process the parsed wire events of a response body in order, stopping
early when the generator returns on a wire `error` event. -/
def anthropicProcessEvents : List ApiStreamEvent → AnthState → List StreamEvent × AnthState × Bool
  | [], st => ([], st, false)
  | e :: rest, st =>
    match anthropicProcessEvent st e with
    | (out, st1, true) => (out, st1, true)
    | (out, st1, false) =>
      match anthropicProcessEvents rest st1 with
      | (out2, st2, halted) => (out ++ out2, st2, halted)

/-- The stream phase of Anthropic `send`: the processed events followed by
the final `usage` yield — which is skipped when a wire `error` event made
the generator return early. -/
def anthropicStreamEvents (events : List ApiStreamEvent) : List StreamEvent :=
  match anthropicProcessEvents events initAnthState with
  | (out, _, true) => out
  | (out, st, false) => out ++ [StreamEvent.usage st.inputTokens st.outputTokens]

/-- The transport-level view of the `fetch` response consumed by `send`:
its `ok` flag and `status`, the error-branch `text()`, and the parsed
data events of the SSE body (`none` models a missing body). -/
structure HttpResponse where
  ok : Bool
  status : Nat
  bodyText : String
  body : Option (List ApiStreamEvent)

/-- Anthropic `send` from the `fetch` response on: the non-ok and
missing-body branches yield a single `error` event and return;
otherwise the SSE body is streamed. -/
def anthropicSend (resp : HttpResponse) : List StreamEvent :=
  if resp.ok = false then
    [StreamEvent.error ("API error " ++ toString resp.status ++ ": " ++ resp.bodyText)]
  else
    match resp.body with
    | none => [StreamEvent.error "No response body"]
    | some events => anthropicStreamEvents events

/-! ## OpenAI Provider Adapter (src/providers/openai.ts) -/

/-- One entry of `choice.delta.tool_calls`; `fname`/`fargs` stand for
`tc.function?.name` and `tc.function?.arguments`. -/
structure OAIToolCallDelta where
  index : Nat
  id : Option String
  fname : Option String
  fargs : Option String

/-- `choice.delta`; `content` is `string | null | absent`, collapsed. -/
structure OAIChoiceDelta where
  content : Option String
  tool_calls : Option (List OAIToolCallDelta)

/-- One element of `chunk.choices`. -/
structure OAIChoice where
  delta : Option OAIChoiceDelta
  finish_reason : Option String

/-- `chunk.usage` (`prompt_tokens` / `completion_tokens`). -/
structure OAIUsage where
  prompt_tokens : Option Nat
  completion_tokens : Option Nat

/-- `OpenAIStreamDelta`, the parsed shape of one OpenAI SSE data line. -/
structure OAIChunk where
  choices : List OAIChoice
  usage : Option OAIUsage

/-- A pending tool call being accumulated (`{id, name, argChunks}`). -/
structure OAIBuilder where
  id : String
  name : String
  argChunks : List String

/-- The flush on `finish_reason === "tool_calls"`: emit one `tool_use`
per pending builder in map (insertion) order, deleting each; malformed
accumulated JSON degrades to the empty object. -/
def flushBuilders (m : List (Nat × OAIBuilder)) : List StreamEvent :=
  m.map (fun p =>
    let json := String.join p.2.argChunks
    let input := if json = "" then Json.obj [] else (parseJson json).getD (Json.obj [])
    StreamEvent.tool_use p.2.id p.2.name input)

/-- The per-line body of the OpenAI `send` loop over one parsed chunk:
text delta, tool-call fragment accumulation, finish-reason handling
(with the `"tool_calls"` flush and the `"stop"`→`"end_turn"`
normalization), then the usage chunk. -/
def openaiProcessChunk (st : List (Nat × OAIBuilder)) (chunk : OAIChunk) :
    List StreamEvent × List (Nat × OAIBuilder) :=
  let choice := chunk.choices.head?
  let textOut : List StreamEvent :=
    match choice with
    | some c =>
      match c.delta with
      | some d =>
        match d.content with
        | some t => if t ≠ "" then [StreamEvent.text t] else []
        | none => []
      | none => []
    | none => []
  let st1 :=
    match choice with
    | some c =>
      match c.delta with
      | some d =>
        match d.tool_calls with
        | some tcs =>
          tcs.foldl (fun m tc =>
            let m1 :=
              match tc.id with
              | some tcid =>
                if tcid ≠ "" then
                  mapSet m tc.index { id := tcid, name := tc.fname.getD "", argChunks := [] }
                else m
              | none => m
            match mapGet m1 tc.index, tc.fargs with
            | some b, some args =>
              if args ≠ "" then mapSet m1 tc.index { b with argChunks := b.argChunks ++ [args] }
              else m1
            | _, _ => m1) st
        | none => st
      | none => st
    | none => st
  let frPair : List StreamEvent × List (Nat × OAIBuilder) :=
    match choice with
    | some c =>
      match c.finish_reason with
      | some fr =>
        if fr ≠ "" then
          if fr = "tool_calls" then (flushBuilders st1 ++ [StreamEvent.stop "tool_use"], [])
          else ([StreamEvent.stop (if fr = "stop" then "end_turn" else fr)], st1)
        else ([], st1)
      | none => ([], st1)
    | none => ([], st1)
  let usageOut : List StreamEvent :=
    match chunk.usage with
    | some u => [StreamEvent.usage (u.prompt_tokens.getD 0) (u.completion_tokens.getD 0)]
    | none => []
  (textOut ++ frPair.1 ++ usageOut, frPair.2)

/-! ## The context-managed call step of the current Agent Loop -/

/-- Modelled from the spec: the repl revision that wires the Context
Manager into the Agent Loop (the `sendMessage` called from src/main.ts
with a `contextConfig` and an `onContextTruncation` callback) is not
present under src/ — only its caller is.  Per spec section 4.3 step 1,
each iteration first runs the Context Manager over the current history,
notifies the caller with the dropped count when messages were dropped,
and replaces the history with the truncated result before invoking the
provider.  The result triple is (history sent, the dropped count passed
to `onContextTruncation` when any, the provider call's events). -/
def contextManagedCall (provider : List Message → List StreamEvent)
    (messages : List Message) (config : ContextConfig) (systemPrompt : Option String)
    (tools : Option (List ApiTool)) :
    Except String (List Message × Option Nat × List StreamEvent) :=
  match manageContext messages config systemPrompt tools with
  | Except.error e => Except.error e
  | Except.ok r =>
    if 0 < r.dropped then Except.ok (r.messages, some r.dropped, provider r.messages)
    else Except.ok (r.messages, none, provider r.messages)

/-! ## Concrete inputs used by witnesses and counterexamples -/

/-- A plain-text user message. -/
def msgU (s : String) : Message := { role := Role.user, content := MessageContent.str s }

/-- An 8-character message: 2 estimated tokens. -/
def cxLongFirst : Message := msgU "12345678"

/-- A 1-character message: 1 estimated token. -/
def cxSmall : Message := msgU "x"

/-- A truncate-strategy config with one available token. -/
def cxConfig : ContextConfig :=
  { maxContextTokens := 1, strategy := ContextStrategy.truncate, reservedTokens := 0 }

/-- A truncate-strategy config with three available tokens. -/
def w2Config : ContextConfig :=
  { maxContextTokens := 3, strategy := ContextStrategy.truncate, reservedTokens := 0 }

/-- A 4-character message: 1 estimated token. -/
def wMsg1 : Message := msgU "abcd"

/-- An 8-character message: 2 estimated tokens. -/
def wMsg2 : Message := msgU "12345678"

/-- A 4-character message: 1 estimated token. -/
def wMsg3 : Message := msgU "wxyz"

/-- A provider emitting one text chunk, one tool call and a tool-use stop. -/
def p4 : List Message → List StreamEvent :=
  fun _ => [StreamEvent.text "T", StreamEvent.tool_use "id1" "w" (Json.obj []),
    StreamEvent.stop "tool_use"]

/-- A provider that always returns a tool call and a tool-use stop reason. -/
def p6 : List Message → List StreamEvent :=
  fun _ => [StreamEvent.tool_use "t1" "foo" (Json.obj []), StreamEvent.stop "tool_use"]

/-- A provider whose stream errors after some text. -/
def p8 : List Message → List StreamEvent :=
  fun _ => [StreamEvent.text "hi", StreamEvent.error "boom"]

/-- A provider whose stream is a single error event. -/
def p10 : List Message → List StreamEvent := fun _ => [StreamEvent.error "boom"]

/-- A simulated 401 transport response. -/
def resp401 : HttpResponse :=
  { ok := false, status := 401, bodyText := "\x7b\"error\":\"bad key\"\x7d", body := none }

/-- An Anthropic wire event with only a type and optional index/blocks. -/
def mkApiEvent (type : String) (index : Option Nat) (cb : Option CBlockInfo)
    (d : Option DeltaInfo) : ApiStreamEvent :=
  { type := type, index := index, content_block := cb, delta := d,
    message_usage := none, usage := none, error_message := none }

/-- `content_block_start` of a `tool_use` block at index 0. -/
def c7start : ApiStreamEvent :=
  mkApiEvent "content_block_start" (some 0)
    (some { type := some "tool_use", id := some "tool_1", name := some "read_file" }) none

/-- An `input_json_delta` payload. -/
def inputDelta (pj : String) : DeltaInfo :=
  { type := some "input_json_delta", text := none, partial_json := some pj, stop_reason := none }

/-- First fragment of the tool input JSON. -/
def c7frag1 : ApiStreamEvent :=
  mkApiEvent "content_block_delta" (some 0) none (some (inputDelta "\x7b\"path\":"))

/-- Second fragment of the tool input JSON. -/
def c7frag2 : ApiStreamEvent :=
  mkApiEvent "content_block_delta" (some 0) none (some (inputDelta "\"/tmp/x\"\x7d"))

/-- The completion signal (`content_block_stop`) for index 0. -/
def c7stop : ApiStreamEvent := mkApiEvent "content_block_stop" (some 0) none none

/-- A `message_delta` wire event carrying a stop reason. -/
def anthStopEvent (r : String) : ApiStreamEvent :=
  mkApiEvent "message_delta" none none
    (some { type := none, text := none, partial_json := none, stop_reason := some r })

/-- An OpenAI chunk whose sole choice carries just a finish reason. -/
def oaiFinishChunk (r : String) : OAIChunk :=
  { choices := [{ delta := none, finish_reason := some r }], usage := none }

/-- A provider emitting only usage and stop events. -/
def pQuiet : List Message → List StreamEvent :=
  fun _ => [StreamEvent.usage 3 5, StreamEvent.stop "end_turn"]

/-! ## Theorems: Context Manager -/

/-- The backward scan keeps a reversed prefix of its reversed input in
front of the accumulator. -/
theorem keepFromEnd_take (rev : List Message) :
    ∀ (budget : Nat) (kept : List Message),
      ∃ n, n ≤ rev.length ∧ keepFromEnd rev budget kept = (rev.take n).reverse ++ kept := by
  induction rev with
  | nil =>
    intro budget kept
    exact ⟨0, Nat.le_refl 0, rfl⟩
  | cons msg rest ih =>
    intro budget kept
    by_cases hfit : estimateTokens msg ≤ budget
    · obtain ⟨n, hn, heq⟩ := ih (budget - estimateTokens msg) (msg :: kept)
      refine ⟨n + 1, by simpa using Nat.succ_le_succ hn, ?_⟩
      simp only [keepFromEnd, if_pos hfit, heq, List.take_succ_cons, List.reverse_cons,
        List.append_assoc, List.cons_append, List.nil_append]
    · exact ⟨0, Nat.zero_le _, by simp [keepFromEnd, if_neg hfit]⟩

/-- The kept messages of the backward scan fit in the remaining budget. -/
theorem keepFromEnd_tokens (rev : List Message) :
    ∀ (budget : Nat) (kept : List Message),
      totalMessageTokens (keepFromEnd rev budget kept) ≤ budget + totalMessageTokens kept := by
  induction rev with
  | nil =>
    intro budget kept
    simp only [keepFromEnd]
    exact Nat.le_add_left (totalMessageTokens kept) budget
  | cons msg rest ih =>
    intro budget kept
    by_cases hfit : estimateTokens msg ≤ budget
    · have h1 := ih (budget - estimateTokens msg) (msg :: kept)
      simp only [keepFromEnd, if_pos hfit]
      calc totalMessageTokens (keepFromEnd rest (budget - estimateTokens msg) (msg :: kept))
        ≤ budget - estimateTokens msg + totalMessageTokens (msg :: kept) := h1
        _ = budget - estimateTokens msg + (estimateTokens msg + totalMessageTokens kept) := by
            simp [totalMessageTokens]
        _ = budget + totalMessageTokens kept := by omega
    · simp only [keepFromEnd, if_neg hfit]
      exact Nat.le_add_left _ _

/-- Claim C3: when the messages exceed the budget and the first message
alone fits, `truncateMessages` returns the first message followed by a
contiguous suffix of the most recent messages in original order (the
output is `first :: drop k` of the input for some k ≥ 1 — never
reordered, never with an interior gap), and reports `dropped` equal to
the input length minus the output length. -/
theorem truncateMessages_contiguous_tail (first : Message) (rest : List Message)
    (maxTokens : Nat) (hover : maxTokens < totalMessageTokens (first :: rest))
    (hfirst : estimateTokens first ≤ maxTokens) :
    ∃ k, 1 ≤ k ∧ k ≤ (first :: rest).length ∧
      (truncateMessages (first :: rest) maxTokens).messages = first :: (first :: rest).drop k ∧
      (truncateMessages (first :: rest) maxTokens).dropped =
        (first :: rest).length - (truncateMessages (first :: rest) maxTokens).messages.length := by
  have hred : truncateMessages (first :: rest) maxTokens =
      { messages := first :: keepFromEnd rest.reverse (maxTokens - estimateTokens first) [],
        dropped := (first :: rest).length -
          (first :: keepFromEnd rest.reverse (maxTokens - estimateTokens first) []).length } := by
    simp only [truncateMessages, if_neg (Nat.not_le_of_lt hover), if_neg (Nat.not_lt_of_le hfirst)]
  obtain ⟨n, hn, heq⟩ := keepFromEnd_take rest.reverse (maxTokens - estimateTokens first) []
  have hkept : keepFromEnd rest.reverse (maxTokens - estimateTokens first) [] =
      rest.drop (rest.length - n) := by
    rw [heq, List.append_nil, List.take_reverse, List.reverse_reverse]
  refine ⟨rest.length - n + 1, by omega, ?_, ?_, ?_⟩
  · simp only [List.length_cons]
    omega
  · rw [hred, hkept]
    simp [List.drop_succ_cons]
  · rw [hred]

/-- Witness for C3: three messages of 1, 2 and 1 estimated tokens against
a 2-token budget overflow, the first fits, and the theorem applies. -/
theorem truncateMessages_contiguous_tail_witness :
    2 < totalMessageTokens [wMsg1, wMsg2, wMsg3] ∧ estimateTokens wMsg1 ≤ 2 ∧
      ∃ k, 1 ≤ k ∧ k ≤ ([wMsg1] ++ [wMsg2, wMsg3]).length ∧
        (truncateMessages ([wMsg1] ++ [wMsg2, wMsg3]) 2).messages =
          wMsg1 :: ([wMsg1] ++ [wMsg2, wMsg3]).drop k ∧
        (truncateMessages ([wMsg1] ++ [wMsg2, wMsg3]) 2).dropped =
          ([wMsg1] ++ [wMsg2, wMsg3]).length -
            (truncateMessages ([wMsg1] ++ [wMsg2, wMsg3]) 2).messages.length :=
  ⟨by decide, by decide, truncateMessages_contiguous_tail wMsg1 [wMsg2, wMsg3] 2
    (by decide) (by decide)⟩

/-- Counterexample to C1 as stated: with one available token, a 2-token
first message and a 1-token second message, `manageContext` returns only
the first message — the result exceeds the available budget and is
neither the original list nor reported as `dropped = 0`. -/
theorem manageContext_over_budget_cex :
    manageContext [cxLongFirst, cxSmall] cxConfig none none =
      Except.ok { messages := [cxLongFirst], dropped := 1 } ∧
    ¬ ((totalMessageTokens [cxLongFirst] : Int) ≤ availableOf cxConfig none none ∨
        ([cxLongFirst] = [cxLongFirst, cxSmall] ∧ (1 : Nat) = 0)) := by
  refine ⟨by rfl, ?_⟩
  rintro (h | ⟨-, h2⟩)
  · exact absurd h (by decide)
  · exact absurd h2 (by decide)


/-- Claim C1 (amended): whenever `manageContext` returns, either the
returned messages fit the available budget, or the original messages are
returned unchanged with `dropped = 0`, or — the case the original claim
misses — the first message alone exceeds the budget and it is returned
alone with every other message dropped. -/
theorem manageContext_budget_or_unchanged_or_first (messages : List Message)
    (config : ContextConfig) (systemPrompt : Option String) (tools : Option (List ApiTool))
    (r : TruncationResult)
    (h : manageContext messages config systemPrompt tools = Except.ok r) :
    (totalMessageTokens r.messages : Int) ≤ availableOf config systemPrompt tools ∨
      (r.messages = messages ∧ r.dropped = 0) ∨
      (∃ first rest, messages = first :: rest ∧ r.messages = [first] ∧ r.dropped = rest.length ∧
        availableOf config systemPrompt tools < (estimateTokens first : Int)) := by
  simp only [manageContext] at h
  by_cases hA : availableOf config systemPrompt tools ≤ 0
  · rw [if_pos hA] at h
    exact absurd h (by simp)
  · rw [if_neg hA] at h
    have h0 : 0 < availableOf config systemPrompt tools := lt_of_not_le hA
    have hcast : ((availableOf config systemPrompt tools).toNat : Int) =
        availableOf config systemPrompt tools := Int.toNat_of_nonneg h0.le
    by_cases hT : (totalMessageTokens messages : Int) ≤ availableOf config systemPrompt tools
    · rw [if_pos hT] at h
      refine Or.inr (Or.inl ?_)
      cases h
      exact ⟨rfl, rfl⟩
    · rw [if_neg hT] at h
      cases hS : config.strategy with
      | error =>
        rw [hS] at h
        exact absurd h (by simp)
      | truncate =>
        rw [hS] at h
        have hr : r = truncateMessages messages (availableOf config systemPrompt tools).toNat := by
          cases h
          rfl
        cases messages with
        | nil =>
          exfalso
          apply hT
          simp only [totalMessageTokens]
          exact_mod_cast h0.le
        | cons first rest =>
          have hover : (availableOf config systemPrompt tools).toNat <
              totalMessageTokens (first :: rest) := by
            have h1 := lt_of_not_le hT
            rw [← hcast] at h1
            exact_mod_cast h1
          simp only [truncateMessages, if_neg (Nat.not_le_of_lt hover)] at hr
          by_cases hf : (availableOf config systemPrompt tools).toNat < estimateTokens first
          · rw [if_pos hf] at hr
            refine Or.inr (Or.inr ⟨first, rest, rfl, ?_, ?_, ?_⟩)
            · rw [hr]
            · rw [hr]
              simp
            · rw [← hcast]
              exact_mod_cast hf
          · rw [if_neg hf] at hr
            refine Or.inl ?_
            have hkept := keepFromEnd_tokens rest.reverse
              ((availableOf config systemPrompt tools).toNat - estimateTokens first) []
            have hfle : estimateTokens first ≤ (availableOf config systemPrompt tools).toNat :=
              Nat.le_of_not_lt hf
            have hbound : totalMessageTokens r.messages ≤
                (availableOf config systemPrompt tools).toNat := by
              rw [hr]
              simp only [totalMessageTokens] at hkept ⊢
              omega
            rw [← hcast]
            exact_mod_cast hbound

/-- Witness for the amended C1: a 3-token budget over messages of 1, 2
and 1 tokens triggers truncation (`dropped = 1`) and the theorem applies. -/
theorem manageContext_budget_or_unchanged_or_first_witness :
    manageContext [wMsg1, wMsg2, wMsg3] w2Config none none =
      Except.ok { messages := [wMsg1, wMsg3], dropped := 1 } ∧
    ((totalMessageTokens (TruncationResult.mk [wMsg1, wMsg3] 1).messages : Int) ≤
        availableOf w2Config none none ∨
      ((TruncationResult.mk [wMsg1, wMsg3] 1).messages = [wMsg1, wMsg2, wMsg3] ∧
        (TruncationResult.mk [wMsg1, wMsg3] 1).dropped = 0) ∨
      (∃ first rest, [wMsg1, wMsg2, wMsg3] = first :: rest ∧
        (TruncationResult.mk [wMsg1, wMsg3] 1).messages = [first] ∧
        (TruncationResult.mk [wMsg1, wMsg3] 1).dropped = rest.length ∧
        availableOf w2Config none none < (estimateTokens first : Int))) :=
  ⟨by rfl, manageContext_budget_or_unchanged_or_first [wMsg1, wMsg2, wMsg3] w2Config none none
    (TruncationResult.mk [wMsg1, wMsg3] 1) (by rfl)⟩

/-! ## Theorems: Agent Loop -/

/-- Consuming a stream whose prefix has no error event and then hits an
`error m` event throws `m`, whatever follows. -/
theorem consumeEvents_error_skip (pre : List StreamEvent) :
    ∀ (acc : CallAcc), (∀ e ∈ pre, isErrorEvent e = false) →
      ∀ (m : String) (post : List StreamEvent),
        ∃ acc2, consumeEvents (pre ++ StreamEvent.error m :: post) acc = (acc2, some m) := by
  induction pre with
  | nil =>
    intro acc _ m post
    exact ⟨acc, rfl⟩
  | cons e rest ih =>
    intro acc hpre m post
    have hrest : ∀ x ∈ rest, isErrorEvent x = false := fun x hx => hpre x (List.mem_cons_of_mem e hx)
    have he : isErrorEvent e = false := hpre e (List.mem_cons_self e rest)
    cases e with
    | text t => exact ih _ hrest m post
    | tool_use tid name input => exact ih _ hrest m post
    | usage i o => exact ih _ hrest m post
    | stop r => exact ih _ hrest m post
    | error m2 => simp [isErrorEvent] at he

/-- Claim C8: when the provider's event sequence contains an error event,
the iteration raises it as the single turn-level error, carrying the
error message, and no assistant message assembled from that call's
earlier text or tool_use events is appended: the history is exactly what
it was when the call began. -/
theorem runAgentLoop_error_aborts (provider : List Message → List StreamEvent)
    (toolRegistry : Option (List Tool)) (confirmTool : Option (String → Json → Bool))
    (fuel : Nat) (s : ConversationState) (pre : List StreamEvent) (m : String)
    (post : List StreamEvent)
    (hp : provider s.messages = pre ++ StreamEvent.error m :: post)
    (hpre : ∀ e ∈ pre, isErrorEvent e = false) :
    ∃ s2, runAgentLoopFuel provider toolRegistry confirmTool (fuel + 1) s = (s2, some m) ∧
      s2.messages = s.messages := by
  obtain ⟨acc2, hc⟩ := consumeEvents_error_skip pre initCallAcc hpre m post
  refine ⟨applyUsage s acc2, ?_, rfl⟩
  simp only [runAgentLoopFuel, hp, hc]

/-- Witness for C8: a provider streaming text then an error makes the
20-iteration loop abort with that message and an unchanged history. -/
theorem runAgentLoop_error_aborts_witness :
    p8 (createConversation none).messages =
      [StreamEvent.text "hi"] ++ StreamEvent.error "boom" :: [] ∧
    (∀ e ∈ [StreamEvent.text "hi"], isErrorEvent e = false) ∧
    ∃ s2, runAgentLoopFuel p8 none none (19 + 1) (createConversation none) = (s2, some "boom") ∧
      s2.messages = (createConversation none).messages :=
  ⟨rfl, by simp [isErrorEvent],
    runAgentLoop_error_aborts p8 none none 19 (createConversation none)
      [StreamEvent.text "hi"] "boom" [] rfl (by simp [isErrorEvent])⟩

/-- A stream with no text, tool_use or error events leaves the text and
block accumulators unchanged and throws nothing. -/
theorem consumeEvents_quiet (events : List StreamEvent) :
    ∀ (acc : CallAcc),
      (∀ e ∈ events, isTextEvent e = false ∧ isToolUseEvent e = false ∧ isErrorEvent e = false) →
      (consumeEvents events acc).2 = none ∧
        (consumeEvents events acc).1.textChunks = acc.textChunks ∧
        (consumeEvents events acc).1.contentBlocks = acc.contentBlocks := by
  induction events with
  | nil =>
    intro acc _
    exact ⟨rfl, rfl, rfl⟩
  | cons e rest ih =>
    intro acc hq
    have hrest : ∀ x ∈ rest, isTextEvent x = false ∧ isToolUseEvent x = false ∧
        isErrorEvent x = false := fun x hx => hq x (List.mem_cons_of_mem e hx)
    have he := hq e (List.mem_cons_self e rest)
    cases e with
    | text t => simp [isTextEvent] at he
    | tool_use tid name input => simp [isToolUseEvent] at he
    | error m => simp [isErrorEvent] at he
    | usage i o => exact ih _ hrest
    | stop r => exact ih _ hrest

/-- Counterexample to C10 as stated: a provider stream consisting of the
single event `error "boom"` yields no text and no tool_use events, yet
the loop does not exit normally — it raises the error. -/
theorem runAgentLoop_quiet_cex :
    (∀ e ∈ p10 [], isTextEvent e = false ∧ isToolUseEvent e = false) ∧
    (runAgentLoopFuel p10 none none 20 (createConversation none)).2 = some "boom" := by
  constructor
  · simp [p10, isTextEvent, isToolUseEvent]
  · rfl

/-- Claim C10 (amended): when the provider's event sequence has no text,
no tool_use and no error events, no assistant message is appended for
that call — the message list is unchanged — and the loop exits normally
without error. -/
theorem runAgentLoop_no_content_no_append (provider : List Message → List StreamEvent)
    (toolRegistry : Option (List Tool)) (confirmTool : Option (String → Json → Bool))
    (fuel : Nat) (s : ConversationState)
    (hq : ∀ e ∈ provider s.messages,
      isTextEvent e = false ∧ isToolUseEvent e = false ∧ isErrorEvent e = false) :
    ∃ s2, runAgentLoopFuel provider toolRegistry confirmTool (fuel + 1) s = (s2, none) ∧
      s2.messages = s.messages := by
  obtain ⟨h2, ht, hb⟩ := consumeEvents_quiet (provider s.messages) initCallAcc hq
  refine ⟨applyUsage s (consumeEvents (provider s.messages) initCallAcc).1, ?_, rfl⟩
  simp only [runAgentLoopFuel]
  rw [h2, ht, hb]
  simp [initCallAcc]

/-- Witness for the amended C10: a usage-and-stop-only stream leaves the
history unchanged and the loop exits normally. -/
theorem runAgentLoop_no_content_no_append_witness :
    (∀ e ∈ pQuiet (createConversation none).messages,
      isTextEvent e = false ∧ isToolUseEvent e = false ∧ isErrorEvent e = false) ∧
    ∃ s2, runAgentLoopFuel pQuiet none none (19 + 1) (createConversation none) = (s2, none) ∧
      s2.messages = (createConversation none).messages :=
  ⟨by simp [pQuiet, isTextEvent, isToolUseEvent, isErrorEvent],
    runAgentLoop_no_content_no_append pQuiet none none 19 (createConversation none)
      (by simp [pQuiet, isTextEvent, isToolUseEvent, isErrorEvent])⟩

/-- The event-consumption loop only ever appends `tool_use` blocks to the
accumulated content blocks. -/
theorem consumeEvents_blocks_toolUse (events : List StreamEvent) :
    ∀ (acc : CallAcc), (∀ b ∈ acc.contentBlocks, isToolUse b = true) →
      ∀ b ∈ (consumeEvents events acc).1.contentBlocks, isToolUse b = true := by
  induction events with
  | nil => intro acc hacc; exact hacc
  | cons e rest ih =>
    intro acc hacc
    cases e with
    | text t => exact ih _ hacc
    | tool_use tid name input =>
      refine ih _ ?_
      intro b hb
      rcases List.mem_append.mp hb with h | h
      · exact hacc b h
      · rcases List.mem_singleton.mp h with rfl
        rfl
    | usage i o => exact ih _ hacc
    | stop r => exact ih _ hacc
    | error m => exact hacc

/-- Every `tool_use` block produces exactly one `tool_result` carrying its
id, in each of the unknown-tool, denied, failed and successful branches. -/
theorem execOneTool_toolResult (toolRegistry : Option (List Tool))
    (confirmTool : Option (String → Json → Bool)) (tid name : String) (input : Json) :
    ∃ content isErr, execOneTool toolRegistry confirmTool
      (ContentBlock.tool_use tid name input) =
        some (ContentBlock.tool_result tid content isErr) := by
  cases hreg : toolRegistry.bind (fun r => registryGet r name) with
  | none => exact ⟨"Unknown tool: " ++ name, true, by simp [execOneTool, hreg]⟩
  | some tool =>
    cases hconf : confirmTool with
    | none =>
      cases hexec : tool.execute input with
      | ok result =>
        exact ⟨result, false, by simp [execOneTool, hreg, hconf, execToolBlock, hexec]⟩
      | error errMsg =>
        exact ⟨errMsg, true, by simp [execOneTool, hreg, hconf, execToolBlock, hexec]⟩
    | some c =>
      by_cases hd : DANGEROUS_TOOLS.contains name && !(c name input)
      · refine ⟨"Tool execution denied by user.", true, ?_⟩
        simp only [execOneTool, hreg, hconf]
        rw [if_pos hd]
      · cases hexec : tool.execute input with
        | ok result =>
          refine ⟨result, false, ?_⟩
          simp only [execOneTool, hreg, hconf]
          rw [if_neg hd]
          simp [execToolBlock, hexec]
        | error errMsg =>
          refine ⟨errMsg, true, ?_⟩
          simp only [execOneTool, hreg, hconf]
          rw [if_neg hd]
          simp [execToolBlock, hexec]

/-- Executing an all-`tool_use` block list yields exactly one
`tool_result` per block (equal lengths), in the same order and matched
by id (the id sequences coincide), every output being a `tool_result`. -/
theorem execTools_match (toolRegistry : Option (List Tool))
    (confirmTool : Option (String → Json → Bool)) (blocks : List ContentBlock)
    (hblocks : ∀ b ∈ blocks, isToolUse b = true) :
    (blocks.filterMap (execOneTool toolRegistry confirmTool)).length = blocks.length ∧
      (blocks.filterMap (execOneTool toolRegistry confirmTool)).map blockResultId =
        blocks.map blockUseId ∧
      ∀ r ∈ blocks.filterMap (execOneTool toolRegistry confirmTool), isToolResult r = true := by
  induction blocks with
  | nil => exact ⟨rfl, rfl, by simp⟩
  | cons b bs ih =>
    have hb : isToolUse b = true := hblocks b (List.mem_cons_self b bs)
    have hbs : ∀ x ∈ bs, isToolUse x = true := fun x hx => hblocks x (List.mem_cons_of_mem b hx)
    obtain ⟨ihl, ihm, ihr⟩ := ih hbs
    cases b with
    | text t => simp [isToolUse] at hb
    | tool_result tid content isErr => simp [isToolUse] at hb
    | tool_use tid name input =>
      obtain ⟨content, isErr, hexec⟩ :=
        execOneTool_toolResult toolRegistry confirmTool tid name input
      refine ⟨?_, ?_, ?_⟩
      · simp [List.filterMap_cons, hexec, ihl]
      · simp [List.filterMap_cons, hexec, ihm, blockResultId, blockUseId]
      · intro r hr
        simp only [List.filterMap_cons, hexec] at hr
        rcases List.mem_cons.mp hr with rfl | hr2
        · rfl
        · exact ihr r hr2

/-- One full tool-calling iteration of the loop: with a clean consume
giving at least one tool call and a tool-use stop reason, the iteration
appends the assembled assistant message and then the user message of
tool results, and recurses on the remaining fuel. -/
theorem runAgentLoopFuel_step (provider : List Message → List StreamEvent)
    (toolRegistry : Option (List Tool)) (confirmTool : Option (String → Json → Bool))
    (fuel : Nat) (s : ConversationState) (acc : CallAcc)
    (hc : consumeEvents (provider s.messages) initCallAcc = (acc, none))
    (hb : acc.contentBlocks ≠ []) (hs : acc.stopReason = "tool_use") :
    runAgentLoopFuel provider toolRegistry confirmTool (fuel + 1) s =
      runAgentLoopFuel provider toolRegistry confirmTool fuel
        (pushMessage
          (pushMessage (applyUsage s acc)
            { role := Role.assistant,
              content := MessageContent.blocks
                ((if 0 < acc.textChunks.length then
                    [ContentBlock.text (String.join acc.textChunks)]
                  else []) ++ acc.contentBlocks) })
          { role := Role.user,
            content := MessageContent.blocks
              (acc.contentBlocks.filterMap (execOneTool toolRegistry confirmTool)) }) := by
  have hlen : 0 < acc.contentBlocks.length := List.length_pos.mpr hb
  have hcond : ¬(acc.contentBlocks.length = 0 ∨ ¬acc.stopReason = "tool_use") := by
    push_neg
    exact ⟨by omega, hs⟩
  have hcontent : 0 < ((if 0 < acc.textChunks.length then
      [ContentBlock.text (String.join acc.textChunks)] else []) ++ acc.contentBlocks).length := by
    simp only [List.length_append]
    omega
  simp only [runAgentLoopFuel, hc, if_pos hcontent, if_neg hcond]

/-- Claim C4: for an assistant message holding the call's tool_use blocks,
the user message appended immediately afterward contains exactly one
tool_result per tool_use block — equal counts, same order, matched by
id — whatever the registry, confirmation outcome, or execution outcome. -/
theorem runAgentLoop_tool_results_match (provider : List Message → List StreamEvent)
    (toolRegistry : Option (List Tool)) (confirmTool : Option (String → Json → Bool))
    (fuel : Nat) (s : ConversationState) (acc : CallAcc)
    (hc : consumeEvents (provider s.messages) initCallAcc = (acc, none))
    (hb : acc.contentBlocks ≠ []) (hs : acc.stopReason = "tool_use") :
    ∃ (tpart : List ContentBlock) (rs : List ContentBlock) (s1 : ConversationState),
      runAgentLoopFuel provider toolRegistry confirmTool (fuel + 1) s =
        runAgentLoopFuel provider toolRegistry confirmTool fuel s1 ∧
      s1.messages = s.messages ++
        [{ role := Role.assistant, content := MessageContent.blocks (tpart ++ acc.contentBlocks) },
          { role := Role.user, content := MessageContent.blocks rs }] ∧
      (∀ b ∈ acc.contentBlocks, isToolUse b = true) ∧
      rs.length = acc.contentBlocks.length ∧
      rs.map blockResultId = acc.contentBlocks.map blockUseId ∧
      (∀ r ∈ rs, isToolResult r = true) := by
  have halltu : ∀ b ∈ acc.contentBlocks, isToolUse b = true := by
    have h := consumeEvents_blocks_toolUse (provider s.messages) initCallAcc
      (by intro b hb2; simp [initCallAcc] at hb2)
    rw [hc] at h
    exact h
  obtain ⟨hlen, hmap, hres⟩ := execTools_match toolRegistry confirmTool acc.contentBlocks halltu
  refine ⟨(if 0 < acc.textChunks.length then [ContentBlock.text (String.join acc.textChunks)]
      else []),
    acc.contentBlocks.filterMap (execOneTool toolRegistry confirmTool), _,
    runAgentLoopFuel_step provider toolRegistry confirmTool fuel s acc hc hb hs, ?_,
    halltu, hlen, hmap, hres⟩
  simp [pushMessage, applyUsage]

/-- Witness for C4: a provider call with one text chunk and one tool call
against an empty registry; the appended user message carries the single
unknown-tool error result matched by id. -/
theorem runAgentLoop_tool_results_match_witness :
    consumeEvents (p4 (createConversation none).messages) initCallAcc =
      ({ textChunks := ["T"],
         contentBlocks := [ContentBlock.tool_use "id1" "w" (Json.obj [])],
         stopReason := "tool_use", inTok := 0, outTok := 0 }, none) ∧
    ([ContentBlock.tool_use "id1" "w" (Json.obj [])] : List ContentBlock) ≠ [] ∧
    ∃ (tpart : List ContentBlock) (rs : List ContentBlock) (s1 : ConversationState),
      runAgentLoopFuel p4 none none (19 + 1) (createConversation none) =
        runAgentLoopFuel p4 none none 19 s1 ∧
      s1.messages = (createConversation none).messages ++
        [{ role := Role.assistant, content := MessageContent.blocks
            (tpart ++ [ContentBlock.tool_use "id1" "w" (Json.obj [])]) },
          { role := Role.user, content := MessageContent.blocks rs }] ∧
      (∀ b ∈ [ContentBlock.tool_use "id1" "w" (Json.obj [])], isToolUse b = true) ∧
      rs.length = [ContentBlock.tool_use "id1" "w" (Json.obj [])].length ∧
      rs.map blockResultId = [ContentBlock.tool_use "id1" "w" (Json.obj [])].map blockUseId ∧
      (∀ r ∈ rs, isToolResult r = true) :=
  ⟨rfl, by simp,
    runAgentLoop_tool_results_match p4 none none 19 (createConversation none)
      { textChunks := ["T"],
        contentBlocks := [ContentBlock.tool_use "id1" "w" (Json.obj [])],
        stopReason := "tool_use", inTok := 0, outTok := 0 } rfl (by simp) rfl⟩

/-- Under a provider that always returns at least one tool call and a
tool-use stop reason without erroring, every fuel budget is consumed:
each iteration appends exactly an assistant message and a tool-result
user message, the loop never throws, and (for positive fuel) the tail
ends with the last iteration's assistant and tool-result messages. -/
theorem runAgentLoopFuel_toolspin (provider : List Message → List StreamEvent)
    (toolRegistry : Option (List Tool)) (confirmTool : Option (String → Json → Bool))
    (hp : ∀ msgs, (consumeEvents (provider msgs) initCallAcc).2 = none ∧
      (consumeEvents (provider msgs) initCallAcc).1.contentBlocks ≠ [] ∧
      (consumeEvents (provider msgs) initCallAcc).1.stopReason = "tool_use") :
    ∀ (fuel : Nat) (s : ConversationState),
      (runAgentLoopFuel provider toolRegistry confirmTool fuel s).2 = none ∧
      ∃ tail, (runAgentLoopFuel provider toolRegistry confirmTool fuel s).1.messages =
          s.messages ++ tail ∧
        tail.length = 2 * fuel ∧
        (0 < fuel → ∃ pre2 a u, tail = pre2 ++ [a, u] ∧ a.role = Role.assistant ∧
          ∃ rs, u = { role := Role.user, content := MessageContent.blocks rs }) := by
  intro fuel
  induction fuel with
  | zero =>
    intro s
    exact ⟨rfl, [], by simp [runAgentLoopFuel], rfl, fun h => absurd h (by omega)⟩
  | succ fuel ih =>
    intro s
    obtain ⟨h2, hb, hs⟩ := hp s.messages
    have hc : consumeEvents (provider s.messages) initCallAcc =
        ((consumeEvents (provider s.messages) initCallAcc).1, none) := by
      rw [← h2]
    rw [runAgentLoopFuel_step provider toolRegistry confirmTool fuel s _ hc hb hs]
    obtain ⟨ih2, tail, iheq, ihlen, ihlast⟩ := ih _
    refine ⟨ih2, ?_⟩
    let acc := (consumeEvents (provider s.messages) initCallAcc).1
    let tpart : List ContentBlock :=
      if 0 < acc.textChunks.length then [ContentBlock.text (String.join acc.textChunks)] else []
    let ac1 : List ContentBlock := tpart ++ acc.contentBlocks
    let aMsg : Message := { role := Role.assistant, content := MessageContent.blocks ac1 }
    let trs : List ContentBlock :=
      acc.contentBlocks.filterMap (execOneTool toolRegistry confirmTool)
    let uMsg : Message := { role := Role.user, content := MessageContent.blocks trs }
    refine ⟨aMsg :: uMsg :: tail, ?_, ?_, ?_⟩
    · rw [iheq]
      simp [pushMessage, applyUsage]
    · simp only [List.length_cons, ihlen]
      omega
    · intro _
      cases fuel with
      | zero =>
        have htail : tail = [] := List.length_eq_zero.mp (by omega)
        subst htail
        exact ⟨[], aMsg, uMsg, by simp, rfl, trs, rfl⟩
      | succ fuel2 =>
        obtain ⟨pre2, a, u, hteq, harole, rs2, hu⟩ := ihlast (by omega)
        subst hteq
        exact ⟨aMsg :: uMsg :: pre2, a, u, by simp, harole, rs2, hu⟩

/-- Claim C6: a provider that always returns a tool call and a tool-use
stop reason drives `runAgentLoop` through exactly its 20-iteration cap:
it terminates deterministically with no raised error, having appended
2 times 20 messages, and the final two are the last iteration's
assistant message and tool-result user message. -/
theorem runAgentLoop_tool_spin_cap (provider : List Message → List StreamEvent)
    (toolRegistry : Option (List Tool)) (confirmTool : Option (String → Json → Bool))
    (s : ConversationState)
    (hp : ∀ msgs, (consumeEvents (provider msgs) initCallAcc).2 = none ∧
      (consumeEvents (provider msgs) initCallAcc).1.contentBlocks ≠ [] ∧
      (consumeEvents (provider msgs) initCallAcc).1.stopReason = "tool_use") :
    (runAgentLoop provider toolRegistry confirmTool s).2 = none ∧
    ∃ tail, (runAgentLoop provider toolRegistry confirmTool s).1.messages =
        s.messages ++ tail ∧
      tail.length = 2 * 20 ∧
      ∃ pre2 a u, tail = pre2 ++ [a, u] ∧ a.role = Role.assistant ∧
        ∃ rs, u = { role := Role.user, content := MessageContent.blocks rs } := by
  obtain ⟨h2, tail, heq, hlen, hlast⟩ :=
    runAgentLoopFuel_toolspin provider toolRegistry confirmTool hp 20 s
  exact ⟨h2, tail, heq, hlen, hlast (by omega)⟩

/-- Witness for C6: the always-tool-calling provider `p6` with no registry
runs the loop to its cap from a fresh conversation. -/
theorem runAgentLoop_tool_spin_cap_witness :
    (∀ msgs, (consumeEvents (p6 msgs) initCallAcc).2 = none ∧
      (consumeEvents (p6 msgs) initCallAcc).1.contentBlocks ≠ [] ∧
      (consumeEvents (p6 msgs) initCallAcc).1.stopReason = "tool_use") ∧
    ((runAgentLoop p6 none none (createConversation none)).2 = none ∧
    ∃ tail, (runAgentLoop p6 none none (createConversation none)).1.messages =
        (createConversation none).messages ++ tail ∧
      tail.length = 2 * 20 ∧
      ∃ pre2 a u, tail = pre2 ++ [a, u] ∧ a.role = Role.assistant ∧
        ∃ rs, u = { role := Role.user, content := MessageContent.blocks rs }) :=
  ⟨fun msgs => ⟨rfl, by simp [p6, consumeEvents, initCallAcc], rfl⟩,
    runAgentLoop_tool_spin_cap p6 none none (createConversation none)
      (fun msgs => ⟨rfl, by simp [p6, consumeEvents, initCallAcc], rfl⟩)⟩

/-! ## Theorems: Provider Adapters -/

/-- Claim C5: on a non-success HTTP status or a missing response body,
the Anthropic adapter's event sequence is exactly one event, of type
error — no text and no usage events, and nothing after it. -/
theorem anthropicSend_transport_error (resp : HttpResponse)
    (h : resp.ok = false ∨ resp.body = none) :
    ∃ m, anthropicSend resp = [StreamEvent.error m] := by
  rcases h with h | h
  · exact ⟨"API error " ++ toString resp.status ++ ": " ++ resp.bodyText,
      by simp [anthropicSend, h]⟩
  · by_cases hok : resp.ok = false
    · exact ⟨"API error " ++ toString resp.status ++ ": " ++ resp.bodyText,
        by simp [anthropicSend, hok]⟩
    · refine ⟨"No response body", ?_⟩
      simp only [anthropicSend, if_neg hok, h]

/-- Witness for C5: the simulated 401 response yields exactly one error
event. -/
theorem anthropicSend_transport_error_witness :
    (resp401.ok = false ∨ resp401.body = none) ∧
      ∃ m, anthropicSend resp401 = [StreamEvent.error m] :=
  ⟨Or.inl rfl, anthropicSend_transport_error resp401 (Or.inl rfl)⟩

/-- Claim C7: a started tool_use block followed by the two
input_json_delta fragments without the completion signal yields no
tool_use event; with the content_block_stop completion signal it yields
exactly one tool_use event whose input is the object with field "path"
set to "/tmp/x". -/
theorem anthropic_tool_fragments_accumulate :
    (anthropicStreamEvents [c7start, c7frag1, c7frag2]).filter isToolUseEvent = [] ∧
    (anthropicStreamEvents [c7start, c7frag1, c7frag2, c7stop]).filter isToolUseEvent =
      [StreamEvent.tool_use "tool_1" "read_file" (Json.obj [("path", Json.str "/tmp/x")])] :=
  ⟨rfl, rfl⟩

/-- Counterexample to C9 as stated: the same hit-the-token-limit stop
condition surfaces as reason "length" from the OpenAI adapter but
"max_tokens" from the Anthropic adapter — backend spellings outside any
small fixed normalized set flow through the stop events verbatim. -/
theorem stop_reason_not_normalized_cex :
    (openaiProcessChunk [] (oaiFinishChunk "length")).1 = [StreamEvent.stop "length"] ∧
    anthropicStreamEvents [anthStopEvent "max_tokens"] =
      [StreamEvent.stop "max_tokens", StreamEvent.usage 0 0] ∧
    ("length" : String) ≠ "end_turn" ∧ ("length" : String) ≠ "tool_use" ∧
    ("max_tokens" : String) ≠ "end_turn" ∧ ("max_tokens" : String) ≠ "tool_use" ∧
    ("length" : String) ≠ "max_tokens" :=
  ⟨rfl, rfl, by decide, by decide, by decide, by decide, by decide⟩

/-- Claim C9 (amended): the end-of-turn and tool-call-completion signals
are normalized — OpenAI's "stop" and "tool_calls" finish reasons become
"end_turn" and "tool_use", and Anthropic's native "end_turn" and
"tool_use" pass through as themselves — while any other backend stop
reason is passed through in the backend's own spelling. -/
theorem stop_reason_normalized_on_completion (r : String) (h1 : r ≠ "") (h2 : r ≠ "stop")
    (h3 : r ≠ "tool_calls") :
    (openaiProcessChunk [] (oaiFinishChunk "stop")).1 = [StreamEvent.stop "end_turn"] ∧
    (openaiProcessChunk [] (oaiFinishChunk "tool_calls")).1 = [StreamEvent.stop "tool_use"] ∧
    anthropicStreamEvents [anthStopEvent "end_turn"] =
      [StreamEvent.stop "end_turn", StreamEvent.usage 0 0] ∧
    anthropicStreamEvents [anthStopEvent "tool_use"] =
      [StreamEvent.stop "tool_use", StreamEvent.usage 0 0] ∧
    (openaiProcessChunk [] (oaiFinishChunk r)).1 = [StreamEvent.stop r] := by
  refine ⟨rfl, rfl, rfl, rfl, ?_⟩
  simp [openaiProcessChunk, oaiFinishChunk, h1, h2, h3]

/-- Witness for the amended C9: instantiated at the OpenAI finish reason
"length", which passes through unnormalized. -/
theorem stop_reason_normalized_on_completion_witness :
    (("length" : String) ≠ "" ∧ ("length" : String) ≠ "stop" ∧
      ("length" : String) ≠ "tool_calls") ∧
    ((openaiProcessChunk [] (oaiFinishChunk "stop")).1 = [StreamEvent.stop "end_turn"] ∧
    (openaiProcessChunk [] (oaiFinishChunk "tool_calls")).1 = [StreamEvent.stop "tool_use"] ∧
    anthropicStreamEvents [anthStopEvent "end_turn"] =
      [StreamEvent.stop "end_turn", StreamEvent.usage 0 0] ∧
    anthropicStreamEvents [anthStopEvent "tool_use"] =
      [StreamEvent.stop "tool_use", StreamEvent.usage 0 0] ∧
    (openaiProcessChunk [] (oaiFinishChunk "length")).1 = [StreamEvent.stop "length"]) :=
  ⟨⟨by decide, by decide, by decide⟩,
    stop_reason_normalized_on_completion "length" (by decide) (by decide) (by decide)⟩

/-! ## Theorems: context management in the Agent Loop (spec-modelled) -/

/-- Claim C2: before invoking the provider, the Context Manager runs over
the current history; the provider is always called on the Context
Manager's result, and whenever messages were dropped the caller is
notified with exactly the dropped count, the history being replaced by
the truncated result for the model call. -/
theorem contextManagedCall_truncates_before_send (provider : List Message → List StreamEvent)
    (messages : List Message) (config : ContextConfig) (systemPrompt : Option String)
    (tools : Option (List ApiTool)) (r : TruncationResult)
    (h : manageContext messages config systemPrompt tools = Except.ok r) :
    contextManagedCall provider messages config systemPrompt tools =
      Except.ok (r.messages, (if 0 < r.dropped then some r.dropped else none),
        provider r.messages) ∧
    (0 < r.dropped → contextManagedCall provider messages config systemPrompt tools =
      Except.ok (r.messages, some r.dropped, provider r.messages)) := by
  constructor
  · simp only [contextManagedCall, h]
    by_cases hd : 0 < r.dropped
    · rw [if_pos hd, if_pos hd]
    · rw [if_neg hd, if_neg hd]
  · intro hd
    simp only [contextManagedCall, h, if_pos hd]

/-- Witness for C2: over a three-message history with a 3-token budget
the Context Manager drops one message, the caller is notified with
count 1, and the provider receives the truncated history. -/
theorem contextManagedCall_truncates_before_send_witness :
    manageContext [wMsg1, wMsg2, wMsg3] w2Config none none =
      Except.ok { messages := [wMsg1, wMsg3], dropped := 1 } ∧
    (contextManagedCall pQuiet [wMsg1, wMsg2, wMsg3] w2Config none none =
      Except.ok ([wMsg1, wMsg3],
        (if 0 < (TruncationResult.mk [wMsg1, wMsg3] 1).dropped then
          some (TruncationResult.mk [wMsg1, wMsg3] 1).dropped else none),
        pQuiet [wMsg1, wMsg3]) ∧
    (0 < (TruncationResult.mk [wMsg1, wMsg3] 1).dropped →
      contextManagedCall pQuiet [wMsg1, wMsg2, wMsg3] w2Config none none =
        Except.ok ([wMsg1, wMsg3], some 1, pQuiet [wMsg1, wMsg3]))) :=
  ⟨by rfl, contextManagedCall_truncates_before_send pQuiet [wMsg1, wMsg2, wMsg3] w2Config
    none none (TruncationResult.mk [wMsg1, wMsg3] 1) (by rfl)⟩
